import Mathlib

/-!
Verification of the weekly Supertrend strategy checker (`backtest.py`).

The script computes a Supertrend(period, multiplier) indicator over weekly
OHLC bars and produces an advisory report.  Prices are modelled as rationals;
the Python floats perform the same field operations.  The per-bar loop of
`supertrend` is embedded as a structural recursion `stState` on the bar
index, carrying exactly the state the loop carries (final bands, trend flag,
reported value).  `analyze_all` / `main` are embedded with the data-fetch
collaborator (`yfinance`) as an explicit oracle `String → Option (List Bar)`
and the wall clock as an explicit `now : String` argument.
-/

/-- One OHLCV bar (`Open`, `High`, `Low`, `Close`, `Volume` columns). -/
structure Bar where
  op : ℚ
  high : ℚ
  low : ℚ
  close : ℚ
  volume : ℚ
  deriving DecidableEq

deriving instance DecidableEq for Except

/-- The default bar used to totalise out-of-range indexing. -/
def defBar : Bar := ⟨0, 0, 0, 0, 0⟩

/-- Bar at position `i` of a series (out-of-range reads give `defBar`;
all guarded uses stay in range). -/
def barAt (bars : List Bar) (i : Nat) : Bar :=
  bars.getD i defBar

/-- True range of bar `i`:
`tr = max(high - low, |high - prevClose|, |low - prevClose|)`,
with `prevClose` missing (NaN, skipped by the row-wise max) at `i = 0`. -/
def trueRange (bars : List Bar) : Nat → ℚ
  | 0 => (barAt bars 0).high - (barAt bars 0).low
  | Nat.succ j =>
      max ((barAt bars (j + 1)).high - (barAt bars (j + 1)).low)
        (max |(barAt bars (j + 1)).high - (barAt bars j).close|
          |(barAt bars (j + 1)).low - (barAt bars j).close|)

/-- `tr.rolling(period, min_periods=1).mean()` at index `i`: the arithmetic
mean of the window of the last `min (i+1) period` true-range values. -/
def atr (bars : List Bar) (period i : Nat) : ℚ :=
  (((List.range (min (i + 1) period)).map
      (fun j => trueRange bars (i + 1 - min (i + 1) period + j))).sum)
    / ((min (i + 1) period : Nat) : ℚ)

/-- `hl2 = (High + Low) / 2` at index `i`. -/
def hl2 (bars : List Bar) (i : Nat) : ℚ :=
  ((barAt bars i).high + (barAt bars i).low) / 2

/-- `basic_upperband = hl2 + multiplier * atr` at index `i`. -/
def basicUpper (bars : List Bar) (period : Nat) (mult : ℚ) (i : Nat) : ℚ :=
  hl2 bars i + mult * atr bars period i

/-- `basic_lowerband = hl2 - multiplier * atr` at index `i`. -/
def basicLower (bars : List Bar) (period : Nat) (mult : ℚ) (i : Nat) : ℚ :=
  hl2 bars i - mult * atr bars period i

/-- The per-bar Supertrend output: final bands, trend flag (`ST_bool`) and
reported band value (`ST_value`). -/
structure STOut where
  finalUpper : ℚ
  finalLower : ℚ
  isBullish : Bool
  stValue : ℚ
  deriving DecidableEq

/-- The state computed by iteration `i` of the loop in `supertrend`:
index 0 seeds the bands with the basic bands, the flag with bullish and the
value with the lower band; index `i+1` applies the band-finalization and
trend-flip rules to the state of index `i`. -/
def stState (bars : List Bar) (period : Nat) (mult : ℚ) : Nat → STOut
  | 0 =>
      ⟨basicUpper bars period mult 0, basicLower bars period mult 0, true,
        basicLower bars period mult 0⟩
  | Nat.succ i =>
      let prev := stState bars period mult i
      let bu := basicUpper bars period mult (i + 1)
      let bl := basicLower bars period mult (i + 1)
      let pc := (barAt bars i).close
      let fu := if bu < prev.finalUpper ∨ pc > prev.finalUpper then bu else prev.finalUpper
      let fl := if bl > prev.finalLower ∨ pc < prev.finalLower then bl else prev.finalLower
      let c := (barAt bars (i + 1)).close
      let st : Bool :=
        if prev.isBullish ∧ c ≤ fu then false
        else if ¬prev.isBullish ∧ c ≥ fl then true
        else prev.isBullish
      ⟨fu, fl, st, if st then fl else fu⟩

/-- The `supertrend` function: one `STOut` per input bar. -/
def supertrend (bars : List Bar) (period : Nat) (mult : ℚ) : List STOut :=
  (List.range bars.length).map (stState bars period mult)

/-- C2: Band finalization recursion.  At every index `i+1`, the final upper
band is the basic upper band `(high+low)/2 + M·ATR` when that basic band
dips below the previous final upper band or the previous close exceeded the
previous final upper band, and is carried over otherwise; symmetrically for
the final lower band with `(high+low)/2 − M·ATR`. -/
theorem band_finalization_recursion (bars : List Bar) (period : Nat) (mult : ℚ) (i : Nat) :
    ((stState bars period mult (i + 1)).finalUpper =
      if ((barAt bars (i + 1)).high + (barAt bars (i + 1)).low) / 2
            + mult * atr bars period (i + 1) < (stState bars period mult i).finalUpper
          ∨ (barAt bars i).close > (stState bars period mult i).finalUpper
      then ((barAt bars (i + 1)).high + (barAt bars (i + 1)).low) / 2
            + mult * atr bars period (i + 1)
      else (stState bars period mult i).finalUpper)
    ∧ ((stState bars period mult (i + 1)).finalLower =
      if ((barAt bars (i + 1)).high + (barAt bars (i + 1)).low) / 2
            - mult * atr bars period (i + 1) > (stState bars period mult i).finalLower
          ∨ (barAt bars i).close < (stState bars period mult i).finalLower
      then ((barAt bars (i + 1)).high + (barAt bars (i + 1)).low) / 2
            - mult * atr bars period (i + 1)
      else (stState bars period mult i).finalLower) := by
  constructor <;> simp [stState, basicUpper, basicLower, hl2]

/-- C3: Trend-flip rule.  If the state at `i` is bullish, the state at `i+1`
is bearish exactly when `close ≤ finalUpper` at `i+1`; if bearish, it is
bullish exactly when `close ≥ finalLower` at `i+1`; in all other cases it
carries the previous flag forward. -/
theorem trend_flip_rule (bars : List Bar) (period : Nat) (mult : ℚ) (i : Nat) :
    ((stState bars period mult i).isBullish = true →
      ((stState bars period mult (i + 1)).isBullish = false ↔
        (barAt bars (i + 1)).close ≤ (stState bars period mult (i + 1)).finalUpper))
    ∧ ((stState bars period mult i).isBullish = false →
      ((stState bars period mult (i + 1)).isBullish = true ↔
        (barAt bars (i + 1)).close ≥ (stState bars period mult (i + 1)).finalLower))
    ∧ (((stState bars period mult i).isBullish = true →
          ¬(barAt bars (i + 1)).close ≤ (stState bars period mult (i + 1)).finalUpper) →
        ((stState bars period mult i).isBullish = false →
          ¬(barAt bars (i + 1)).close ≥ (stState bars period mult (i + 1)).finalLower) →
        (stState bars period mult (i + 1)).isBullish = (stState bars period mult i).isBullish) := by
  cases hb : (stState bars period mult i).isBullish <;> simp [stState, hb]

/-- C3 witness at a concrete series. -/
theorem trend_flip_rule_witness :
    ((stState [⟨1, 2, 1, 2, 0⟩, ⟨1, 2, 1, 1, 0⟩] 10 1 0).isBullish = true →
      ((stState [⟨1, 2, 1, 2, 0⟩, ⟨1, 2, 1, 1, 0⟩] 10 1 1).isBullish = false ↔
        (barAt [⟨1, 2, 1, 2, 0⟩, ⟨1, 2, 1, 1, 0⟩] 1).close ≤
          (stState [⟨1, 2, 1, 2, 0⟩, ⟨1, 2, 1, 1, 0⟩] 10 1 1).finalUpper)) :=
  (trend_flip_rule [⟨1, 2, 1, 2, 0⟩, ⟨1, 2, 1, 1, 0⟩] 10 1 0).1

/-- C4: Seed state and reported band value.  On a non-empty series the state
at index 0 is bullish, its reported value is the final lower band, and the
final bands at 0 are the basic bands; at every index the reported value is
the final lower band when bullish and the final upper band when bearish. -/
theorem seed_state_and_value (bars : List Bar) (period : Nat) (mult : ℚ)
    (hne : bars ≠ []) :
    (stState bars period mult 0).isBullish = true
    ∧ (stState bars period mult 0).stValue = (stState bars period mult 0).finalLower
    ∧ (stState bars period mult 0).finalLower = basicLower bars period mult 0
    ∧ (stState bars period mult 0).finalUpper = basicUpper bars period mult 0
    ∧ ∀ i, (stState bars period mult i).stValue =
        if (stState bars period mult i).isBullish then (stState bars period mult i).finalLower
        else (stState bars period mult i).finalUpper := by
  refine ⟨rfl, rfl, rfl, rfl, fun i => ?_⟩
  cases i with
  | zero => simp [stState]
  | succ j => simp only [stState]

/-- C4 witness at a concrete non-empty series. -/
theorem seed_state_and_value_witness :
    (stState [⟨1, 2, 1, 2, 0⟩] 10 1 0).isBullish = true
    ∧ (stState [⟨1, 2, 1, 2, 0⟩] 10 1 0).stValue =
        (stState [⟨1, 2, 1, 2, 0⟩] 10 1 0).finalLower :=
  ⟨(seed_state_and_value [⟨1, 2, 1, 2, 0⟩] 10 1 (by simp)).1,
    (seed_state_and_value [⟨1, 2, 1, 2, 0⟩] 10 1 (by simp)).2.1⟩

/-- Dropping `k` elements of `List.range' s n` leaves `List.range' (s+k) (n-k)`. -/
theorem range'_drop (k : Nat) : ∀ (s n : Nat),
    (List.range' s n).drop k = List.range' (s + k) (n - k) := by
  induction k with
  | zero => intro s n; simp
  | succ m ih =>
      intro s n
      cases n with
      | zero => simp
      | succ q =>
          rw [List.range'_succ, List.drop_succ_cons, ih (s + 1) q]
          congr 1 <;> omega

/-- The last `w` entries of `f` mapped over `List.range n` are `f` applied to
the window `[n-w, n)`. -/
theorem drop_map_range (f : Nat → ℚ) (n w : Nat) (hw : w ≤ n) :
    ((List.range n).map f).drop (n - w) = (List.range w).map (fun j => f (n - w + j)) := by
  rw [← List.map_drop, List.range_eq_range', range'_drop, Nat.zero_add,
    Nat.sub_sub_self hw, List.range'_eq_map_range, List.map_map]
  rfl

/-- C5: ATR definition.  The true range of bar 0 is `high - low`; at `j+1`
it is the max of `high - low`, `|high - prevClose|` and `|low - prevClose|`;
and `ATR_i` is the arithmetic mean of the true ranges of the last
`min (i+1) N` bars (the window obtained by dropping all earlier values). -/
theorem atr_definition (bars : List Bar) (period i : Nat) :
    trueRange bars 0 = (barAt bars 0).high - (barAt bars 0).low
    ∧ (∀ j, trueRange bars (j + 1) =
        max ((barAt bars (j + 1)).high - (barAt bars (j + 1)).low)
          (max |(barAt bars (j + 1)).high - (barAt bars j).close|
            |(barAt bars (j + 1)).low - (barAt bars j).close|))
    ∧ atr bars period i =
        ((((List.range (i + 1)).map (trueRange bars)).drop
            (i + 1 - min (i + 1) period)).sum)
          / ((min (i + 1) period : Nat) : ℚ) := by
  refine ⟨rfl, fun j => rfl, ?_⟩
  rw [drop_map_range (trueRange bars) (i + 1) (min (i + 1) period) (Nat.min_le_left _ _)]
  rfl

/-- A bar read in range belongs to the series. -/
theorem barAt_mem (bars : List Bar) (i : Nat) (h : i < bars.length) :
    barAt bars i ∈ bars := by
  rw [barAt, List.getD_eq_getElem _ _ h]
  exact List.getElem_mem h

/-- Every true-range value is non-negative on a series satisfying the bar
invariant. -/
theorem trueRange_nonneg (bars : List Bar) (period : Nat)
    (hinv : ∀ b ∈ bars, max b.op b.close ≤ b.high ∧ b.low ≤ min b.op b.close) :
    ∀ j, 0 ≤ trueRange bars j := by
  intro j
  cases j with
  | zero =>
      by_cases hb : 0 < bars.length
      · have hm := hinv (barAt bars 0) (barAt_mem bars 0 hb)
        have : (barAt bars 0).low ≤ (barAt bars 0).high :=
          le_trans hm.2 (le_trans (min_le_max) hm.1)
        simpa [trueRange] using this
      · have hbars : bars = [] := List.length_eq_zero.mp (by omega)
        simp [trueRange, hbars, barAt, defBar]
  | succ k =>
      have h1 : (0 : ℚ) ≤ |(barAt bars (k + 1)).high - (barAt bars k).close| :=
        abs_nonneg _
      calc (0 : ℚ) ≤ |(barAt bars (k + 1)).high - (barAt bars k).close| := h1
        _ ≤ max |(barAt bars (k + 1)).high - (barAt bars k).close|
              |(barAt bars (k + 1)).low - (barAt bars k).close| := le_max_left _ _
        _ ≤ trueRange bars (k + 1) := le_max_right _ _

/-- C6: ATR non-negativity.  Under the bar invariant
`high ≥ max(open,close)` and `min(open,close) ≥ low`, `ATR_i ≥ 0` at every
index; and on a series whose four prices equal one constant at every bar,
`ATR_i = 0` at every index of the series. -/
theorem atr_nonneg_and_const_zero (bars : List Bar) (period : Nat)
    (hinv : ∀ b ∈ bars, max b.op b.close ≤ b.high ∧ b.low ≤ min b.op b.close) :
    (∀ i, 0 ≤ atr bars period i)
    ∧ ∀ p : ℚ, (∀ b ∈ bars, b.op = p ∧ b.high = p ∧ b.low = p ∧ b.close = p) →
        ∀ i, i < bars.length → atr bars period i = 0 := by
  constructor
  · intro i
    apply div_nonneg
    · apply List.sum_nonneg
      intro x hx
      obtain ⟨j, hj, rfl⟩ := List.mem_map.mp hx
      exact trueRange_nonneg bars period hinv _
    · exact_mod_cast Nat.zero_le _
  · intro p hp i hi
    have htr : ∀ j, j ≤ i → trueRange bars j = 0 := by
      intro j hj
      cases j with
      | zero =>
          have hm := hp (barAt bars 0) (barAt_mem bars 0 (by omega))
          simp [trueRange, hm.2.1, hm.2.2.1]
      | succ k =>
          have hm1 := hp (barAt bars (k + 1)) (barAt_mem bars (k + 1) (by omega))
          have hm0 := hp (barAt bars k) (barAt_mem bars k (by omega))
          simp [trueRange, hm1.2.1, hm1.2.2.1, hm1.2.2.2, hm0.2.2.2]
    rw [atr]
    have hz : (((List.range (min (i + 1) period)).map
        (fun j => trueRange bars (i + 1 - min (i + 1) period + j))).sum) = 0 := by
      apply List.sum_eq_zero
      intro x hx
      obtain ⟨j, hj, rfl⟩ := List.mem_map.mp hx
      have hj' : j < min (i + 1) period := List.mem_range.mp hj
      exact htr _ (by omega)
    rw [hz, zero_div]

/-- C6 witness: a concrete constant-price series. -/
theorem atr_nonneg_and_const_zero_witness :
    (0 ≤ atr [⟨1, 1, 1, 1, 0⟩] 10 0) ∧ atr [⟨1, 1, 1, 1, 0⟩] 10 0 = 0 :=
  ⟨(atr_nonneg_and_const_zero [⟨1, 1, 1, 1, 0⟩] 10 (by decide)).1 0,
    (atr_nonneg_and_const_zero [⟨1, 1, 1, 1, 0⟩] 10 (by decide)).2 1 (by decide) 0
      (by decide)⟩

/-- Two series agreeing on their first `n` bars agree at every position below `n`. -/
theorem barAt_congr (bars1 bars2 : List Bar) (n j : Nat)
    (h : bars1.take n = bars2.take n) (hj : j < n) :
    barAt bars1 j = barAt bars2 j := by
  have h1 : (bars1.take n)[j]? = (bars2.take n)[j]? := by rw [h]
  rw [List.getElem?_take, List.getElem?_take] at h1
  simp only [hj, if_pos] at h1
  simp [barAt, List.getD_eq_getElem?_getD, h1]

/-- True range at a position below `n` only reads the first `n` bars. -/
theorem trueRange_congr (bars1 bars2 : List Bar) (n j : Nat)
    (h : bars1.take n = bars2.take n) (hj : j < n) :
    trueRange bars1 j = trueRange bars2 j := by
  cases j with
  | zero => simp [trueRange, barAt_congr bars1 bars2 n 0 h hj]
  | succ k =>
      have h1 := barAt_congr bars1 bars2 n (k + 1) h hj
      have h2 := barAt_congr bars1 bars2 n k h (Nat.lt_of_succ_lt hj)
      simp [trueRange, h1, h2]

/-- ATR at a position below `n` only reads the first `n` bars. -/
theorem atr_congr (bars1 bars2 : List Bar) (period n i : Nat)
    (h : bars1.take n = bars2.take n) (hi : i < n) :
    atr bars1 period i = atr bars2 period i := by
  simp only [atr]
  congr 2
  apply List.map_congr_left
  intro j hj
  have hj' : j < min (i + 1) period := List.mem_range.mp hj
  apply trueRange_congr bars1 bars2 n _ h
  omega

/-- The basic upper band at a position below `n` only reads the first `n` bars. -/
theorem basicUpper_congr (bars1 bars2 : List Bar) (period : Nat) (mult : ℚ) (n i : Nat)
    (h : bars1.take n = bars2.take n) (hi : i < n) :
    basicUpper bars1 period mult i = basicUpper bars2 period mult i := by
  simp only [basicUpper, hl2, atr_congr bars1 bars2 period n i h hi,
    barAt_congr bars1 bars2 n i h hi]

/-- The basic lower band at a position below `n` only reads the first `n` bars. -/
theorem basicLower_congr (bars1 bars2 : List Bar) (period : Nat) (mult : ℚ) (n i : Nat)
    (h : bars1.take n = bars2.take n) (hi : i < n) :
    basicLower bars1 period mult i = basicLower bars2 period mult i := by
  simp only [basicLower, hl2, atr_congr bars1 bars2 period n i h hi,
    barAt_congr bars1 bars2 n i h hi]

/-- The Supertrend state at index `i` only reads the first `i+1` bars. -/
theorem stState_congr (bars1 bars2 : List Bar) (period : Nat) (mult : ℚ) (i : Nat)
    (h : bars1.take (i + 1) = bars2.take (i + 1)) :
    stState bars1 period mult i = stState bars2 period mult i := by
  induction i with
  | zero =>
      simp only [stState, basicUpper_congr bars1 bars2 period mult 1 0 h Nat.one_pos,
        basicLower_congr bars1 bars2 period mult 1 0 h Nat.one_pos]
  | succ k ih =>
      have hk : bars1.take (k + 1) = bars2.take (k + 1) := by
        have h2 := congrArg (List.take (k + 1)) h
        simpa [List.take_take, Nat.min_eq_left (Nat.le_succ (k + 1))] using h2
      simp only [stState, ih hk,
        basicUpper_congr bars1 bars2 period mult (k + 2) (k + 1) h (by omega),
        basicLower_congr bars1 bars2 period mult (k + 2) (k + 1) h (by omega),
        barAt_congr bars1 bars2 (k + 2) k h (by omega),
        barAt_congr bars1 bars2 (k + 2) (k + 1) h (by omega)]

/-- C1: Indicator causality.  If two series agree on bars `0..i` then the
Supertrend state (flag, reported value and both final bands) at `i` agrees;
in particular the state at `i` on the prefix truncated after `i` equals the
state at `i` on the full series, so altering or removing bars after `i`
never changes the state at `i`. -/
theorem indicator_causality (bars1 bars2 : List Bar) (period : Nat) (mult : ℚ) (i : Nat)
    (h : bars1.take (i + 1) = bars2.take (i + 1)) :
    stState bars1 period mult i = stState bars2 period mult i
    ∧ stState (bars1.take (i + 1)) period mult i = stState bars1 period mult i := by
  refine ⟨stState_congr bars1 bars2 period mult i h, ?_⟩
  apply stState_congr
  simp [List.take_take]

/-- C1 witness: two concrete series differing only after index 0. -/
theorem indicator_causality_witness :
    stState [⟨1, 2, 1, 2, 0⟩, ⟨1, 3, 1, 3, 0⟩] 10 1 0 =
        stState [⟨1, 2, 1, 2, 0⟩, ⟨4, 9, 4, 5, 0⟩] 10 1 0
    ∧ stState ([⟨1, 2, 1, 2, 0⟩, ⟨1, 3, 1, 3, 0⟩].take 1) 10 1 0 =
        stState [⟨1, 2, 1, 2, 0⟩, ⟨1, 3, 1, 3, 0⟩] 10 1 0 :=
  indicator_causality [⟨1, 2, 1, 2, 0⟩, ⟨1, 3, 1, 3, 0⟩] [⟨1, 2, 1, 2, 0⟩, ⟨4, 9, 4, 5, 0⟩]
    10 1 0 (by decide)

/-- Per-instrument summary: last close, latest flag (`st_is_green`), previous
flag (`st_prev_green`, the latest flag again on a one-bar series) and latest
reported band value, read from the last two rows of the supertrend frame. -/
structure InstrInfo where
  lastClose : ℚ
  stIsGreen : Bool
  stPrevGreen : Bool
  stValue : ℚ
  deriving DecidableEq

/-- The `last = st.iloc[-1]` / `prev = st.iloc[-2] if len(st) >= 2 else last`
extraction performed for each instrument in `analyze_all`. -/
def analyzeInstr (period : Nat) (mult : ℚ) (df : List Bar) : InstrInfo :=
  let last := stState df period mult (df.length - 1)
  let prev := if 2 ≤ df.length then stState df period mult (df.length - 2) else last
  ⟨(barAt df (df.length - 1)).close, last.isBullish, prev.isBullish, last.stValue⟩

/-- A per-instrument report entry: the info dict on success, the
`{"error": str(e)}` dict on a caught failure. -/
inductive EtfEntry where
  | ok (info : InstrInfo)
  | err (msg : String)
  deriving DecidableEq

/-- One entry of `report["action_summary"]` (the market-regime note carries
no ticker). -/
structure ActionItem where
  ticker : Option String
  action : String
  reason : String
  deriving DecidableEq

/-- The configuration read from the environment: benchmark ticker, equity
list, gold/silver list, liquid ticker, Supertrend period and multiplier. -/
structure Config where
  niftyTicker : String
  equityTickers : List String
  goldSilverTickers : List String
  liquidTicker : String
  superPeriod : Nat
  superMult : ℚ
  deriving DecidableEq

/-- `fetch_weekly`: the `yfinance` download is an oracle
`String → Option (List Bar)` (already date-sorted; `none` is a download
failure).  A missing or empty frame raises `No data for ticker: <t>`. -/
def fetchWeekly (fetch : String → Option (List Bar)) (t : String) :
    Except String (List Bar) :=
  match fetch t with
  | none => Except.error ("No data for ticker: " ++ t)
  | some l => if l.isEmpty then Except.error ("No data for ticker: " ++ t) else Except.ok l

/-- The action appended for an equity ETF whose analysis succeeded
(`SELL` whenever the benchmark is red, otherwise its own transition). -/
def equityAction (niftyGreen : Bool) (t : String) (info : InstrInfo) : ActionItem :=
  if ¬niftyGreen then
    ⟨some t, "SELL",
      "NIFTY weekly Supertrend is RED - per master rule exit equity ETFs and park in LIQUIDBEES."⟩
  else if info.stIsGreen ∧ ¬info.stPrevGreen then
    ⟨some t, "BUY", "ETF weekly Supertrend turned GREEN and NIFTY is GREEN."⟩
  else if ¬info.stIsGreen ∧ info.stPrevGreen then
    ⟨some t, "SELL", "ETF weekly Supertrend turned RED while NIFTY is GREEN."⟩
  else
    ⟨some t, "HOLD", "No change in ETF weekly Supertrend."⟩

/-- The action appended for a gold/silver instrument whose analysis
succeeded: a function of its own indicator only. -/
def gsAction (t : String) (info : InstrInfo) : ActionItem :=
  if info.stIsGreen ∧ ¬info.stPrevGreen then
    ⟨some t, "BUY", "Gold/Silver weekly Supertrend turned GREEN (independent of NIFTY)."⟩
  else if ¬info.stIsGreen ∧ info.stPrevGreen then
    ⟨some t, "SELL", "Gold/Silver weekly Supertrend turned RED (independent of NIFTY)."⟩
  else
    ⟨some t, "HOLD", "No change in weekly Supertrend for Gold/Silver."⟩

/-- One iteration of the equity loop of `analyze_all`: the report entry and
the appended action, with any fetch failure caught and downgraded to an
`ERROR` entry carrying the message. -/
def equityResult (period : Nat) (mult : ℚ) (fetch : String → Option (List Bar))
    (niftyGreen : Bool) (t : String) : (String × EtfEntry) × ActionItem :=
  match fetchWeekly fetch t with
  | Except.error e => ((t, EtfEntry.err e), ⟨some t, "ERROR", e⟩)
  | Except.ok df =>
      let info := analyzeInstr period mult df
      ((t, EtfEntry.ok info), equityAction niftyGreen t info)

/-- One iteration of the gold/silver loop of `analyze_all` (the benchmark
state is not an input). -/
def gsResult (period : Nat) (mult : ℚ) (fetch : String → Option (List Bar))
    (t : String) : (String × EtfEntry) × ActionItem :=
  match fetchWeekly fetch t with
  | Except.error e => ((t, EtfEntry.err e), ⟨some t, "ERROR", e⟩)
  | Except.ok df =>
      let info := analyzeInstr period mult df
      ((t, EtfEntry.ok info), gsAction t info)

/-- The report built by `analyze_all`. -/
structure Report where
  timestampUtc : String
  niftyTicker : String
  equityTickers : List String
  goldSilverTickers : List String
  liquidTicker : String
  niftyLastClose : ℚ
  niftyIsGreen : Bool
  niftyStValue : ℚ
  etfs : List (String × EtfEntry)
  goldSilver : List (String × EtfEntry)
  liquidbeesTicker : String
  actionSummary : List ActionItem
  deriving DecidableEq

/-- `analyze_all` with the wall clock (`datetime.utcnow().isoformat()`)
passed explicitly as `now`.  A benchmark fetch failure is re-raised as
`Failed to fetch NIFTY data: <e>`; all per-instrument failures are caught
inside the loops. -/
def analyzeAll (now : String) (fetch : String → Option (List Bar)) (cfg : Config) :
    Except String Report :=
  match fetchWeekly fetch cfg.niftyTicker with
  | Except.error e => Except.error ("Failed to fetch NIFTY data: " ++ e)
  | Except.ok dfN =>
      let infoN := analyzeInstr cfg.superPeriod cfg.superMult dfN
      let niftyGreen := infoN.stIsGreen
      let marketItems : List ActionItem :=
        if niftyGreen then []
        else [⟨none, "MARKET_RED",
          "NIFTY Weekly Supertrend is RED. Move equity allocations to LIQUIDBEES only (per your rule)."⟩]
      let etfResults :=
        cfg.equityTickers.map (equityResult cfg.superPeriod cfg.superMult fetch niftyGreen)
      let gsResults :=
        cfg.goldSilverTickers.map (gsResult cfg.superPeriod cfg.superMult fetch)
      let liquidItem : ActionItem :=
        if niftyGreen then
          ⟨some cfg.liquidTicker, "STANDBY",
            "NIFTY green -> LiquidBees used only for leftover cash, not main allocation."⟩
        else
          ⟨some cfg.liquidTicker, "PARK",
            "NIFTY red -> move equity allocations to LiquidBees per system rule."⟩
      Except.ok
        { timestampUtc := now
          niftyTicker := cfg.niftyTicker
          equityTickers := cfg.equityTickers
          goldSilverTickers := cfg.goldSilverTickers
          liquidTicker := cfg.liquidTicker
          niftyLastClose := infoN.lastClose
          niftyIsGreen := niftyGreen
          niftyStValue := infoN.stValue
          etfs := etfResults.map Prod.fst
          goldSilver := gsResults.map Prod.fst
          liquidbeesTicker := cfg.liquidTicker
          actionSummary :=
            marketItems ++ etfResults.map Prod.snd ++ gsResults.map Prod.snd ++ [liquidItem] }

/-- `main`: the process exit code — `sys.exit(2)` when `analyze_all` raises,
normal termination (0) otherwise. -/
def mainExitCode (now : String) (fetch : String → Option (List Bar)) (cfg : Config) : Nat :=
  match analyzeAll now fetch cfg with
  | Except.error _ => 2
  | Except.ok _ => 0

/-- The report with its wall-clock field erased. -/
def eraseTime (r : Report) : Report :=
  { r with timestampUtc := "" }

/-- The equity loop body on a caught fetch failure. -/
theorem equityResult_of_error (period : Nat) (mult : ℚ)
    (fetch : String → Option (List Bar)) (g : Bool) (t e : String)
    (h : fetchWeekly fetch t = Except.error e) :
    equityResult period mult fetch g t = ((t, EtfEntry.err e), ⟨some t, "ERROR", e⟩) := by
  simp [equityResult, h]

/-- The equity loop body on a successful fetch. -/
theorem equityResult_of_ok (period : Nat) (mult : ℚ)
    (fetch : String → Option (List Bar)) (g : Bool) (t : String) (df : List Bar)
    (h : fetchWeekly fetch t = Except.ok df) :
    equityResult period mult fetch g t =
      ((t, EtfEntry.ok (analyzeInstr period mult df)),
        equityAction g t (analyzeInstr period mult df)) := by
  simp [equityResult, h]

/-- The gold/silver loop body on a caught fetch failure. -/
theorem gsResult_of_error (period : Nat) (mult : ℚ)
    (fetch : String → Option (List Bar)) (t e : String)
    (h : fetchWeekly fetch t = Except.error e) :
    gsResult period mult fetch t = ((t, EtfEntry.err e), ⟨some t, "ERROR", e⟩) := by
  simp [gsResult, h]

/-- The gold/silver loop body on a successful fetch. -/
theorem gsResult_of_ok (period : Nat) (mult : ℚ)
    (fetch : String → Option (List Bar)) (t : String) (df : List Bar)
    (h : fetchWeekly fetch t = Except.ok df) :
    gsResult period mult fetch t =
      ((t, EtfEntry.ok (analyzeInstr period mult df)),
        gsAction t (analyzeInstr period mult df)) := by
  simp [gsResult, h]

/-- C7: Error fatality is decided by the benchmark.  A benchmark fetch
failure makes `analyze_all` raise (re-wrapped) and `main` exit with code 2;
a successful benchmark fetch always yields a report with exit code 0, in
which each failing non-benchmark instrument appears as an error entry plus
an `ERROR` action carrying its message, and every succeeding instrument
appears with its computed info. -/
theorem error_fatality (now : String) (fetch : String → Option (List Bar)) (cfg : Config) :
    (∀ e, fetchWeekly fetch cfg.niftyTicker = Except.error e →
        analyzeAll now fetch cfg = Except.error ("Failed to fetch NIFTY data: " ++ e)
        ∧ mainExitCode now fetch cfg = 2)
    ∧ (∀ dfN, fetchWeekly fetch cfg.niftyTicker = Except.ok dfN →
        (∃ r, analyzeAll now fetch cfg = Except.ok r) ∧ mainExitCode now fetch cfg = 0)
    ∧ ∀ r, analyzeAll now fetch cfg = Except.ok r →
        (∀ t ∈ cfg.equityTickers, ∀ e, fetchWeekly fetch t = Except.error e →
            (t, EtfEntry.err e) ∈ r.etfs
            ∧ ActionItem.mk (some t) "ERROR" e ∈ r.actionSummary)
        ∧ (∀ t ∈ cfg.goldSilverTickers, ∀ e, fetchWeekly fetch t = Except.error e →
            (t, EtfEntry.err e) ∈ r.goldSilver
            ∧ ActionItem.mk (some t) "ERROR" e ∈ r.actionSummary)
        ∧ (∀ t ∈ cfg.equityTickers, ∀ df, fetchWeekly fetch t = Except.ok df →
            (t, EtfEntry.ok (analyzeInstr cfg.superPeriod cfg.superMult df)) ∈ r.etfs)
        ∧ (∀ t ∈ cfg.goldSilverTickers, ∀ df, fetchWeekly fetch t = Except.ok df →
            (t, EtfEntry.ok (analyzeInstr cfg.superPeriod cfg.superMult df)) ∈ r.goldSilver) := by
  refine ⟨fun e he => ⟨by simp [analyzeAll, he], by simp [mainExitCode, analyzeAll, he]⟩,
    fun dfN hN => ?_, fun r hr => ?_⟩
  · refine ⟨?_, by simp [mainExitCode, analyzeAll, hN]⟩
    cases h2 : analyzeAll now fetch cfg with
    | error e => simp [analyzeAll, hN] at h2
    | ok rr => exact ⟨rr, rfl⟩
  cases hN : fetchWeekly fetch cfg.niftyTicker with
  | error e => simp [analyzeAll, hN] at hr
  | ok dfN =>
      simp only [analyzeAll, hN, Except.ok.injEq] at hr
      subst hr
      refine ⟨fun t ht e he => ⟨?_, ?_⟩, fun t ht e he => ⟨?_, ?_⟩,
        fun t ht df hdf => ?_, fun t ht df hdf => ?_⟩
      · have h1 := List.mem_map_of_mem Prod.fst (List.mem_map_of_mem
          (equityResult cfg.superPeriod cfg.superMult fetch
            (analyzeInstr cfg.superPeriod cfg.superMult dfN).stIsGreen) ht)
        rw [equityResult_of_error _ _ _ _ _ _ he] at h1
        simpa using h1
      · apply List.mem_append_left
        apply List.mem_append_left
        apply List.mem_append_right
        have h1 := List.mem_map_of_mem Prod.snd (List.mem_map_of_mem
          (equityResult cfg.superPeriod cfg.superMult fetch
            (analyzeInstr cfg.superPeriod cfg.superMult dfN).stIsGreen) ht)
        rw [equityResult_of_error _ _ _ _ _ _ he] at h1
        simpa using h1
      · have h1 := List.mem_map_of_mem Prod.fst (List.mem_map_of_mem
          (gsResult cfg.superPeriod cfg.superMult fetch) ht)
        rw [gsResult_of_error _ _ _ _ _ he] at h1
        simpa using h1
      · apply List.mem_append_left
        apply List.mem_append_right
        have h1 := List.mem_map_of_mem Prod.snd (List.mem_map_of_mem
          (gsResult cfg.superPeriod cfg.superMult fetch) ht)
        rw [gsResult_of_error _ _ _ _ _ he] at h1
        simpa using h1
      · have h1 := List.mem_map_of_mem Prod.fst (List.mem_map_of_mem
          (equityResult cfg.superPeriod cfg.superMult fetch
            (analyzeInstr cfg.superPeriod cfg.superMult dfN).stIsGreen) ht)
        rw [equityResult_of_ok _ _ _ _ _ _ hdf] at h1
        simpa using h1
      · have h1 := List.mem_map_of_mem Prod.fst (List.mem_map_of_mem
          (gsResult cfg.superPeriod cfg.superMult fetch) ht)
        rw [gsResult_of_ok _ _ _ _ _ hdf] at h1
        simpa using h1

/-- C7 witness: a run whose benchmark fetch fails aborts with exit code 2. -/
theorem error_fatality_witness :
    analyzeAll "T" (fun _ => none) ⟨"N", ["E"], ["G"], "L", 10, 1⟩
      = Except.error ("Failed to fetch NIFTY data: " ++ ("No data for ticker: " ++ "N"))
    ∧ mainExitCode "T" (fun _ => none) ⟨"N", ["E"], ["G"], "L", 10, 1⟩ = 2 :=
  (error_fatality "T" (fun _ => none) ⟨"N", ["E"], ["G"], "L", 10, 1⟩).1
    ("No data for ticker: " ++ "N") rfl

/-- C8 counterexample: two runs over the identical dataset and configuration
that differ only in the wall-clock time produce different output — the
report embeds `datetime.utcnow().isoformat()` as `timestamp_utc`, so the
output is not bit-for-bit identical and does depend on wall-clock time. -/
theorem output_depends_on_clock :
    analyzeAll "2024-01-01T00:00:00" (fun _ => some [⟨1, 2, 1, 2, 0⟩])
        ⟨"N", [], [], "L", 10, 1⟩
      ≠ analyzeAll "2024-01-08T00:00:00" (fun _ => some [⟨1, 2, 1, 2, 0⟩])
        ⟨"N", [], [], "L", 10, 1⟩ := by
  intro h
  have h2 := congrArg (fun x => match x with
    | Except.ok r => r.timestampUtc
    | Except.error e => e) h
  simp [analyzeAll, fetchWeekly] at h2

/-- C8 amended: modulo the `timestamp_utc` field, the output of
`analyze_all` is a pure function of the bar dataset and the configuration —
two runs at different wall-clock times agree bit-for-bit once that one
field is erased. -/
theorem determinism_modulo_timestamp (now1 now2 : String)
    (fetch : String → Option (List Bar)) (cfg : Config) :
    Except.map eraseTime (analyzeAll now1 fetch cfg)
      = Except.map eraseTime (analyzeAll now2 fetch cfg) := by
  cases hf : fetchWeekly fetch cfg.niftyTicker with
  | error e => simp [analyzeAll, hf]
  | ok dfN => simp [analyzeAll, hf, Except.map, eraseTime]

/-- The action item of the equity loop always carries the instrument's
ticker and one of the four contract actions. -/
theorem equityResult_snd_spec (period : Nat) (mult : ℚ)
    (fetch : String → Option (List Bar)) (g : Bool) (t : String) :
    (equityResult period mult fetch g t).2.ticker = some t
    ∧ ((equityResult period mult fetch g t).2.action = "BUY"
      ∨ (equityResult period mult fetch g t).2.action = "SELL"
      ∨ (equityResult period mult fetch g t).2.action = "HOLD"
      ∨ (equityResult period mult fetch g t).2.action = "ERROR") := by
  cases hf : fetchWeekly fetch t with
  | error e => simp [equityResult, hf]
  | ok df =>
      simp only [equityResult, hf]
      unfold equityAction
      split_ifs <;> simp

/-- The action item of the gold/silver loop always carries the instrument's
ticker and one of the four contract actions. -/
theorem gsResult_snd_spec (period : Nat) (mult : ℚ)
    (fetch : String → Option (List Bar)) (t : String) :
    (gsResult period mult fetch t).2.ticker = some t
    ∧ ((gsResult period mult fetch t).2.action = "BUY"
      ∨ (gsResult period mult fetch t).2.action = "SELL"
      ∨ (gsResult period mult fetch t).2.action = "HOLD"
      ∨ (gsResult period mult fetch t).2.action = "ERROR") := by
  cases hf : fetchWeekly fetch t with
  | error e => simp [gsResult, hf]
  | ok df =>
      simp only [gsResult, hf]
      unfold gsAction
      split_ifs <;> simp

/-- C9: Output contract of the report.  Every analyzed instrument appears
with its info entry (last close, current flag, previous flag, band value)
and has an action item carrying its ticker with an action among
`BUY`, `SELL`, `HOLD`, `ERROR`; and the global action list contains a
`MARKET_RED` regime note exactly when the benchmark's latest state is
bearish. -/
theorem output_contract (now : String) (fetch : String → Option (List Bar))
    (cfg : Config) (r : Report) (dfN : List Bar)
    (hr : analyzeAll now fetch cfg = Except.ok r)
    (hN : fetchWeekly fetch cfg.niftyTicker = Except.ok dfN) :
    (∀ t ∈ cfg.equityTickers, ∀ df, fetchWeekly fetch t = Except.ok df →
        (t, EtfEntry.ok (analyzeInstr cfg.superPeriod cfg.superMult df)) ∈ r.etfs)
    ∧ (∀ t ∈ cfg.goldSilverTickers, ∀ df, fetchWeekly fetch t = Except.ok df →
        (t, EtfEntry.ok (analyzeInstr cfg.superPeriod cfg.superMult df)) ∈ r.goldSilver)
    ∧ (∀ t ∈ cfg.equityTickers, ∃ a ∈ r.actionSummary, a.ticker = some t
        ∧ (a.action = "BUY" ∨ a.action = "SELL" ∨ a.action = "HOLD" ∨ a.action = "ERROR"))
    ∧ (∀ t ∈ cfg.goldSilverTickers, ∃ a ∈ r.actionSummary, a.ticker = some t
        ∧ (a.action = "BUY" ∨ a.action = "SELL" ∨ a.action = "HOLD" ∨ a.action = "ERROR"))
    ∧ ((∃ a ∈ r.actionSummary, a.action = "MARKET_RED") ↔
        (analyzeInstr cfg.superPeriod cfg.superMult dfN).stIsGreen = false) := by
  simp only [analyzeAll, hN, Except.ok.injEq] at hr
  subst hr
  refine ⟨fun t ht df hdf => ?_, fun t ht df hdf => ?_, fun t ht => ?_, fun t ht => ?_, ?_⟩
  · have h1 := List.mem_map_of_mem Prod.fst (List.mem_map_of_mem
      (equityResult cfg.superPeriod cfg.superMult fetch
        (analyzeInstr cfg.superPeriod cfg.superMult dfN).stIsGreen) ht)
    rw [equityResult_of_ok _ _ _ _ _ _ hdf] at h1
    simpa using h1
  · have h1 := List.mem_map_of_mem Prod.fst (List.mem_map_of_mem
      (gsResult cfg.superPeriod cfg.superMult fetch) ht)
    rw [gsResult_of_ok _ _ _ _ _ hdf] at h1
    simpa using h1
  · refine ⟨(equityResult cfg.superPeriod cfg.superMult fetch
        (analyzeInstr cfg.superPeriod cfg.superMult dfN).stIsGreen t).2, ?_,
      (equityResult_snd_spec _ _ _ _ _).1, (equityResult_snd_spec _ _ _ _ _).2⟩
    apply List.mem_append_left
    apply List.mem_append_left
    apply List.mem_append_right
    have h1 := List.mem_map_of_mem Prod.snd (List.mem_map_of_mem
      (equityResult cfg.superPeriod cfg.superMult fetch
        (analyzeInstr cfg.superPeriod cfg.superMult dfN).stIsGreen) ht)
    simpa using h1
  · refine ⟨(gsResult cfg.superPeriod cfg.superMult fetch t).2, ?_,
      (gsResult_snd_spec _ _ _ _).1, (gsResult_snd_spec _ _ _ _).2⟩
    apply List.mem_append_left
    apply List.mem_append_right
    have h1 := List.mem_map_of_mem Prod.snd (List.mem_map_of_mem
      (gsResult cfg.superPeriod cfg.superMult fetch) ht)
    simpa using h1
  · constructor
    · rintro ⟨a, ha, hact⟩
      cases hg : (analyzeInstr cfg.superPeriod cfg.superMult dfN).stIsGreen with
      | false => rfl
      | true =>
          exfalso
          rw [hg] at ha
          simp only [List.mem_append] at ha
          rcases ha with ((hm | he) | hgs) | hl
          · rw [if_pos trivial] at hm
            exact absurd hm (List.not_mem_nil a)
          · obtain ⟨pr, hpr, rfl⟩ := List.mem_map.mp he
            obtain ⟨t, ht, rfl⟩ := List.mem_map.mp hpr
            have hs := (equityResult_snd_spec cfg.superPeriod cfg.superMult fetch true t).2
            rcases hs with h | h | h | h <;> rw [h] at hact <;> exact absurd hact (by decide)
          · obtain ⟨pr, hpr, rfl⟩ := List.mem_map.mp hgs
            obtain ⟨t, ht, rfl⟩ := List.mem_map.mp hpr
            have hs := (gsResult_snd_spec cfg.superPeriod cfg.superMult fetch t).2
            rcases hs with h | h | h | h <;> rw [h] at hact <;> exact absurd hact (by decide)
          · rw [List.mem_singleton] at hl
            rw [hl, if_pos trivial] at hact
            have hne2 : ("STANDBY" : String) ≠ "MARKET_RED" := by decide
            exact hne2 hact
    · intro hbear
      refine ⟨⟨none, "MARKET_RED",
        "NIFTY Weekly Supertrend is RED. Move equity allocations to LIQUIDBEES only (per your rule)."⟩,
        ?_, rfl⟩
      apply List.mem_append_left
      apply List.mem_append_left
      apply List.mem_append_left
      simp [hbear]

/-- C9 witness at a concrete run. -/
theorem output_contract_witness :
    ∃ r, analyzeAll "T" (fun _ => some [⟨1, 2, 1, 2, 0⟩]) ⟨"N", ["E"], ["G"], "L", 10, 1⟩
        = Except.ok r
      ∧ ∃ a ∈ r.actionSummary, a.ticker = some "E"
        ∧ (a.action = "BUY" ∨ a.action = "SELL" ∨ a.action = "HOLD" ∨ a.action = "ERROR") := by
  refine ⟨_, rfl, ?_⟩
  exact (output_contract "T" (fun _ => some [⟨1, 2, 1, 2, 0⟩]) ⟨"N", ["E"], ["G"], "L", 10, 1⟩
    _ [⟨1, 2, 1, 2, 0⟩] rfl rfl).2.2.1 "E" (by decide)

/-- C10: Benchmark override of equity actions.  When the benchmark's latest
state is bearish, every equity instrument whose fetch and analysis succeed
receives the `SELL` action regardless of its own indicator; every
gold/silver instrument's action is produced by `gsAction` applied to its own
indicator only — `BUY` on a red-to-green transition, `SELL` on
green-to-red, `HOLD` otherwise — and the gold/silver results are unchanged
under any replacement of the data of other instruments (the benchmark
included). -/
theorem benchmark_override (now : String) (fetch : String → Option (List Bar))
    (cfg : Config) (r : Report) (dfN : List Bar)
    (hr : analyzeAll now fetch cfg = Except.ok r)
    (hN : fetchWeekly fetch cfg.niftyTicker = Except.ok dfN)
    (hbear : (analyzeInstr cfg.superPeriod cfg.superMult dfN).stIsGreen = false) :
    (∀ t ∈ cfg.equityTickers, ∀ df, fetchWeekly fetch t = Except.ok df →
        ActionItem.mk (some t) "SELL"
          "NIFTY weekly Supertrend is RED - per master rule exit equity ETFs and park in LIQUIDBEES."
          ∈ r.actionSummary)
    ∧ (∀ t ∈ cfg.goldSilverTickers, ∀ df, fetchWeekly fetch t = Except.ok df →
        gsAction t (analyzeInstr cfg.superPeriod cfg.superMult df) ∈ r.actionSummary)
    ∧ (∀ t : String, ∀ info : InstrInfo, gsAction t info =
        if info.stIsGreen ∧ ¬info.stPrevGreen then
          ActionItem.mk (some t) "BUY"
            "Gold/Silver weekly Supertrend turned GREEN (independent of NIFTY)."
        else if ¬info.stIsGreen ∧ info.stPrevGreen then
          ActionItem.mk (some t) "SELL"
            "Gold/Silver weekly Supertrend turned RED (independent of NIFTY)."
        else ActionItem.mk (some t) "HOLD" "No change in weekly Supertrend for Gold/Silver.")
    ∧ (r.goldSilver = (cfg.goldSilverTickers.map
        (gsResult cfg.superPeriod cfg.superMult fetch)).map Prod.fst)
    ∧ ∀ fetch2 : String → Option (List Bar),
        (∀ t ∈ cfg.goldSilverTickers, fetch2 t = fetch t) →
          cfg.goldSilverTickers.map (gsResult cfg.superPeriod cfg.superMult fetch2)
            = cfg.goldSilverTickers.map (gsResult cfg.superPeriod cfg.superMult fetch) := by
  simp only [analyzeAll, hN, Except.ok.injEq] at hr
  subst hr
  refine ⟨fun t ht df hdf => ?_, fun t ht df hdf => ?_, fun t info => rfl, ?_, ?_⟩
  · apply List.mem_append_left
    apply List.mem_append_left
    apply List.mem_append_right
    have h1 := List.mem_map_of_mem Prod.snd (List.mem_map_of_mem
      (equityResult cfg.superPeriod cfg.superMult fetch
        (analyzeInstr cfg.superPeriod cfg.superMult dfN).stIsGreen) ht)
    rw [equityResult_of_ok _ _ _ _ _ _ hdf] at h1
    simp [equityAction, hbear] at h1
    simpa [hbear] using h1
  · apply List.mem_append_left
    apply List.mem_append_right
    have h1 := List.mem_map_of_mem Prod.snd (List.mem_map_of_mem
      (gsResult cfg.superPeriod cfg.superMult fetch) ht)
    rw [gsResult_of_ok _ _ _ _ _ hdf] at h1
    simpa using h1
  · simp [List.map_map]
  · intro fetch2 hf2
    apply List.map_congr_left
    intro t ht
    have hw : fetchWeekly fetch2 t = fetchWeekly fetch t := by
      unfold fetchWeekly
      rw [hf2 t ht]
    cases hf : fetchWeekly fetch t with
    | error e => simp [gsResult, hw, hf]
    | ok df => simp [gsResult, hw, hf]

/-- C10 witness: a concrete run with a bearish benchmark. -/
theorem benchmark_override_witness :
    ∃ r, analyzeAll "T"
        (fun t => if t = "N" then some [⟨1, 2, 1, 2, 0⟩, ⟨1, 2, 1, 1, 0⟩]
          else some [⟨1, 2, 1, 2, 0⟩])
        ⟨"N", ["E"], ["G"], "L", 10, 1⟩ = Except.ok r
      ∧ ActionItem.mk (some "E") "SELL"
          "NIFTY weekly Supertrend is RED - per master rule exit equity ETFs and park in LIQUIDBEES."
          ∈ r.actionSummary := by
  refine ⟨_, rfl, ?_⟩
  exact (benchmark_override "T"
    (fun t => if t = "N" then some [⟨1, 2, 1, 2, 0⟩, ⟨1, 2, 1, 1, 0⟩]
      else some [⟨1, 2, 1, 2, 0⟩])
    ⟨"N", ["E"], ["G"], "L", 10, 1⟩ _ [⟨1, 2, 1, 2, 0⟩, ⟨1, 2, 1, 1, 0⟩]
    rfl (by decide)
    (by norm_num [analyzeInstr, stState, basicUpper, basicLower, hl2, atr,
      trueRange, barAt, defBar, List.range_succ])).1 "E" (by decide)
    [⟨1, 2, 1, 2, 0⟩] (by decide)
